import Mathlib

/-!
Verification of the Task-Manager repository's streak-update logic and
generative-API wrapper.

Shallow embedding notes:
* `updateStreak` and `toggleTaskStatus` are translated from
  `src/project/project/app/task/[id].tsx` (the Supabase read/write is the
  caller's concern; the record read is passed in as an `Option StreakRecord`
  and the record that would be written back is returned).
* Counters are modelled as `Nat` (the database columns are non-negative
  integers), calendar dates as their `YYYY-MM-DD` strings, and the nullable
  `last_completed_date` column as `Option String`.
-/

namespace TaskManager

/-- The `task_streaks` row, as read and written by `updateStreak`
(`current_streak`, `longest_streak`, `total_tasks_completed` integer columns,
nullable `last_completed_date` date column). -/
@[ext] structure StreakRecord where
  current_streak : Nat
  longest_streak : Nat
  total_tasks_completed : Nat
  last_completed_date : Option String
  deriving DecidableEq, Repr

/-- Translation of `updateStreak` from `app/task/[id].tsx` lines 112-155:
the row fetched for the user is `existing` (`null` when absent) and `today`
is the device-local date string.  In the update branch the code computes
`newTotal = total + 1`, increments `newCurrent` and bumps `newLongest` only
when `last_completed_date !== today`, and always writes `today` back as
`last_completed_date`; in the insert branch it creates a `1/1/1/today` row. -/
def updateStreak (existing : Option StreakRecord) (today : String) : StreakRecord :=
  match existing with
  | some existingStreak =>
      let newTotal := existingStreak.total_tasks_completed + 1
      let newCurrent := existingStreak.current_streak
      let newLongest := existingStreak.longest_streak
      if existingStreak.last_completed_date ≠ some today then
        let newCurrent := newCurrent + 1
        let newLongest := if newCurrent > newLongest then newCurrent else newLongest
        { current_streak := newCurrent
          longest_streak := newLongest
          total_tasks_completed := newTotal
          last_completed_date := some today }
      else
        { current_streak := newCurrent
          longest_streak := newLongest
          total_tasks_completed := newTotal
          last_completed_date := some today }
  | none =>
      { current_streak := 1
        longest_streak := 1
        total_tasks_completed := 1
        last_completed_date := some today }

/-- The fields of the `tasks` row touched by `toggleTaskStatus`. -/
structure Task where
  status : String
  completed_at : Option String
  deriving DecidableEq, Repr

/-- Translation of `toggleTaskStatus` from `app/task/[id].tsx` lines 87-110:
flips the status between `completed` and `pending`, sets or clears
`completed_at`, and calls `updateStreak` only when the new status is
`completed`.  The user's streak row (`streak`) and the date used by
`updateStreak` (`today`) are passed in; the result is the updated task
together with the streak row after the call. -/
def toggleTaskStatus (task : Task) (now : String)
    (streak : Option StreakRecord) (today : String) :
    Task × Option StreakRecord :=
  let newStatus := if task.status = "completed" then "pending" else "completed"
  let completedAt := if newStatus = "completed" then some now else none
  let task2 : Task := { task with status := newStatus, completed_at := completedAt }
  if newStatus = "completed" then (task2, some (updateStreak streak today))
  else (task2, streak)

/-- Total tasks recorded in an optional streak row (0 when absent). -/
def totalOf : Option StreakRecord → Nat
  | none => 0
  | some r => r.total_tasks_completed

/-- Current streak recorded in an optional streak row (0 when absent). -/
def currentOf : Option StreakRecord → Nat
  | none => 0
  | some r => r.current_streak

/-- Longest streak recorded in an optional streak row (0 when absent). -/
def longestOf : Option StreakRecord → Nat
  | none => 0
  | some r => r.longest_streak

/-- C1: for every existing streak record `R` and date `D` with
`R.last_completed_date ≠ D` (null previous date and arbitrarily old dates
included — no gap check), `updateStreak` returns
`current + 1`, `max longest (current + 1)`, `total + 1`, `D`;
the current streak is never reset. -/
theorem updateStreak_differentDay (R : StreakRecord) (D : String)
    (h : R.last_completed_date ≠ some D) :
    updateStreak (some R) D =
      { current_streak := R.current_streak + 1
        longest_streak := max R.longest_streak (R.current_streak + 1)
        total_tasks_completed := R.total_tasks_completed + 1
        last_completed_date := some D } := by
  simp only [updateStreak]
  rw [if_pos h]
  by_cases hc : R.current_streak + 1 > R.longest_streak
  · rw [if_pos hc]
    simp only [StreakRecord.mk.injEq, true_and, and_true]
    omega
  · rw [if_neg hc]
    simp only [StreakRecord.mk.injEq, true_and, and_true]
    omega

theorem updateStreak_differentDay_witness :
    updateStreak (some ⟨1, 1, 1, some "2024-01-01"⟩) "2024-01-02" =
      { current_streak := 1 + 1
        longest_streak := max 1 (1 + 1)
        total_tasks_completed := 1 + 1
        last_completed_date := some "2024-01-02" } :=
  updateStreak_differentDay ⟨1, 1, 1, some "2024-01-01"⟩ "2024-01-02" (by decide)

/-- C2: if `longest_streak ≥ current_streak` holds of the input
(vacuously for an absent record), it holds of the record produced by
`updateStreak`, in both the update branch and the creation branch. -/
theorem updateStreak_preserves_longest_ge_current
    (existing : Option StreakRecord) (today : String)
    (h : ∀ R, existing = some R → R.current_streak ≤ R.longest_streak) :
    (updateStreak existing today).current_streak ≤
      (updateStreak existing today).longest_streak := by
  match existing with
  | none => simp [updateStreak]
  | some R =>
      have hR := h R rfl
      simp only [updateStreak]
      by_cases hd : R.last_completed_date ≠ some today
      · rw [if_pos hd]
        dsimp only
        split <;> omega
      · rw [if_neg hd]
        exact hR

theorem updateStreak_preserves_longest_ge_current_witness :
    (updateStreak (some ⟨2, 5, 7, some "2024-03-01"⟩) "2024-03-02").current_streak ≤
      (updateStreak (some ⟨2, 5, 7, some "2024-03-01"⟩) "2024-03-02").longest_streak :=
  updateStreak_preserves_longest_ge_current
    (some ⟨2, 5, 7, some "2024-03-01"⟩) "2024-03-02"
    (fun R hR => by cases hR; decide)

/-- C3: a completion on the same calendar date as `R.last_completed_date`
leaves `current_streak`, `longest_streak` and `last_completed_date`
unchanged and only increments `total_tasks_completed`. -/
theorem updateStreak_sameDay (R : StreakRecord) (D : String)
    (h : R.last_completed_date = some D) :
    updateStreak (some R) D =
      { R with total_tasks_completed := R.total_tasks_completed + 1 } := by
  simp only [updateStreak]
  rw [if_neg (by simp [h])]
  cases R
  simp_all

theorem updateStreak_sameDay_witness :
    updateStreak (some ⟨3, 4, 9, some "2024-05-05"⟩) "2024-05-05" =
      { (⟨3, 4, 9, some "2024-05-05"⟩ : StreakRecord) with
        total_tasks_completed := 9 + 1 } :=
  updateStreak_sameDay ⟨3, 4, 9, some "2024-05-05"⟩ "2024-05-05" rfl

/-- C4: a completion with no existing streak record creates the record
`{current: 1, longest: 1, total: 1, last: D}`. -/
theorem updateStreak_absent (D : String) :
    updateStreak none D =
      { current_streak := 1
        longest_streak := 1
        total_tasks_completed := 1
        last_completed_date := some D } := rfl

/-- C5: the concrete scenario — starting absent, completions on
2024-01-01, again 2024-01-01, then 2024-01-02, then 2024-01-10 produce
`{1,1,1}`, `{1,1,2}`, `{2,2,3}`, `{3,3,4}` with the respective dates
(the 8-day gap still increments: no gap reset). -/
theorem updateStreak_scenario :
    updateStreak none "2024-01-01" = ⟨1, 1, 1, some "2024-01-01"⟩ ∧
    updateStreak (some ⟨1, 1, 1, some "2024-01-01"⟩) "2024-01-01" =
      ⟨1, 1, 2, some "2024-01-01"⟩ ∧
    updateStreak (some ⟨1, 1, 2, some "2024-01-01"⟩) "2024-01-02" =
      ⟨2, 2, 3, some "2024-01-02"⟩ ∧
    updateStreak (some ⟨2, 2, 3, some "2024-01-02"⟩) "2024-01-10" =
      ⟨3, 3, 4, some "2024-01-10"⟩ := by
  refine ⟨rfl, ?_, ?_, ?_⟩ <;> decide

/-- C8: toggling runs the streak update only on a transition to
`completed`; toggling a completed task back to `pending` leaves the
streak row untouched, and every re-completion increments
`total_tasks_completed` again. -/
theorem toggleTaskStatus_streak_frame (task : Task) (now : String)
    (streak : Option StreakRecord) (today : String) :
    (task.status = "completed" →
      (toggleTaskStatus task now streak today).2 = streak) ∧
    (task.status ≠ "completed" →
      (toggleTaskStatus task now streak today).2 =
          some (updateStreak streak today) ∧
        (updateStreak streak today).total_tasks_completed =
          totalOf streak + 1) := by
  constructor
  · intro h
    simp [toggleTaskStatus, h]
  · intro h
    refine ⟨by simp [toggleTaskStatus, h], ?_⟩
    match streak with
    | none => rfl
    | some R =>
        simp only [updateStreak, totalOf]
        split <;> rfl

theorem toggleTaskStatus_streak_frame_witness :
    (toggleTaskStatus ⟨"completed", some "t0"⟩ "t1"
        (some ⟨2, 2, 3, some "2024-01-02"⟩) "2024-01-03").2 =
      some ⟨2, 2, 3, some "2024-01-02"⟩ ∧
    (toggleTaskStatus ⟨"pending", none⟩ "t1"
        (some ⟨2, 2, 3, some "2024-01-02"⟩) "2024-01-03").2 =
      some (updateStreak (some ⟨2, 2, 3, some "2024-01-02"⟩) "2024-01-03") ∧
    (updateStreak (some ⟨2, 2, 3, some "2024-01-02"⟩) "2024-01-03").total_tasks_completed =
      totalOf (some ⟨2, 2, 3, some "2024-01-02"⟩) + 1 :=
  ⟨(toggleTaskStatus_streak_frame ⟨"completed", some "t0"⟩ "t1"
      (some ⟨2, 2, 3, some "2024-01-02"⟩) "2024-01-03").1 rfl,
   (toggleTaskStatus_streak_frame ⟨"pending", none⟩ "t1"
      (some ⟨2, 2, 3, some "2024-01-02"⟩) "2024-01-03").2 (by decide)⟩

/-- C9: `updateStreak` never decreases `longest_streak`, `current_streak`
or `total_tasks_completed` relative to the input record (fields of an
absent record count as 0), in both branches. -/
theorem updateStreak_monotone (existing : Option StreakRecord) (today : String) :
    longestOf existing ≤ (updateStreak existing today).longest_streak ∧
    currentOf existing ≤ (updateStreak existing today).current_streak ∧
    totalOf existing ≤ (updateStreak existing today).total_tasks_completed := by
  match existing with
  | none => simp [updateStreak, longestOf, currentOf, totalOf]
  | some R =>
      simp only [updateStreak, longestOf, currentOf, totalOf]
      by_cases hd : R.last_completed_date ≠ some today
      · rw [if_pos hd]
        dsimp only
        refine ⟨?_, ?_, ?_⟩
        · split <;> omega
        · omega
        · omega
      · rw [if_neg hd]
        exact ⟨le_refl _, le_refl _, Nat.le_succ _⟩

/-!
### The generative-API wrapper (`src/project/project/services/gemini.ts`)

The network is a collaborator: `generateAIRecommendation` is modelled as a
function of the fetch outcome (the parsed JSON body on success, an error on a
thrown network/body-parse failure), and the transcript-parsing path of
`parseVoiceCommand` as a function of the text returned by the model.

JavaScript runtime values reached through `JSON.parse` and property accesses
are modelled by `Json` (`undefined` and `null` are identified as `Json.null`,
which is sound here because both are falsy and both short-circuit optional
chaining).  `JSON.parse` is a host builtin, embedded below as an executable
recursive-descent parser; JSON number literals are modelled as integers
(fractional and exponent numerals are outside the model).
-/

/-- JavaScript values produced by `JSON.parse` (and `undefined`/`null`,
both modelled as `null`). -/
inductive Json where
  | null : Json
  | bool : Bool → Json
  | num : Int → Json
  | str : String → Json
  | arr : List Json → Json
  | obj : List (String × Json) → Json

/-- Object-property lookup; with duplicate keys the last binding wins,
matching `JSON.parse` object semantics. -/
def jlookup : List (String × Json) → String → Option Json
  | [], _ => none
  | (k, v) :: rest, key =>
      match jlookup rest key with
      | some w => some w
      | none => if k = key then some v else none

/-- Null-safe property access `base?.key`: `undefined` on `null`/`undefined`
and on non-object bases (the properties read here do not exist on JS
primitives). -/
def jget (j : Json) (key : String) : Json :=
  match j with
  | .obj fs => (jlookup fs key).getD .null
  | _ => .null

/-- Unguarded property access `base.key`: throws a `TypeError` when the base
is `null`/`undefined` (as `data.candidates` does in the source). -/
def jgetE (j : Json) (key : String) : Except String Json :=
  match j with
  | .null => .error "TypeError"
  | _ => .ok (jget j key)

/-- Null-safe element access `base?.[0]`: first array element, property
`"0"` of an object, first character of a string, `undefined` otherwise. -/
def jidx0 : Json → Json
  | .arr (x :: _) => x
  | .obj fs => (jlookup fs "0").getD .null
  | .str s =>
      match s.data with
      | c :: _ => .str (String.mk [c])
      | [] => .null
  | _ => .null

/-- JavaScript truthiness of a `Json` value. -/
def truthy : Json → Bool
  | .null => false
  | .bool b => b
  | .num n => n != 0
  | .str s => s != ""
  | .arr _ => true
  | .obj _ => true

/-- Whether a `Json` value is a string. -/
def isStr : Json → Bool
  | .str _ => true
  | _ => false

/-- The expression `data.candidates?.[0]?.content?.parts?.[0]?.text` from
`generateAIRecommendation` (gemini.ts line 21): the first access is
unguarded and throws on a `null` body; the rest are optional-chained. -/
def extractText (data : Json) : Except String Json :=
  match jgetE data "candidates" with
  | .error e => .error e
  | .ok c => .ok (jget (jidx0 (jget (jget (jidx0 c) "content") "parts")) "text")

/-- Translation of `generateAIRecommendation` (gemini.ts lines 4-26) as a
function of the fetch outcome: `.error` stands for a thrown network or
body-parse failure.  The try/catch maps every throw — including the
`TypeError` from `data.candidates` on a `null` body — to the fixed string
`Unable to generate recommendation at this time`; otherwise the `||`
fallback yields `No recommendation available` when the text path is falsy,
and the text value itself (whatever `Json` it is) when truthy. -/
def generateAIRecommendation (fetched : Except String Json) : Json :=
  match fetched with
  | .error _ => .str "Unable to generate recommendation at this time"
  | .ok data =>
      match extractText data with
      | .error _ => .str "Unable to generate recommendation at this time"
      | .ok t => if truthy t then t else .str "No recommendation available"

/-! #### An executable model of `JSON.parse` -/

/-- Drop leading JSON whitespace. -/
def skipWs : List Char → List Char
  | c :: cs =>
      if c = ' ' ∨ c = '\t' ∨ c = '\n' ∨ c = '\x0d' then skipWs cs else c :: cs
  | [] => []

/-- Value of a hexadecimal digit. -/
def hexVal (c : Char) : Option Nat :=
  if '0' ≤ c ∧ c ≤ '9' then some (c.toNat - '0'.toNat)
  else if 'a' ≤ c ∧ c ≤ 'f' then some (c.toNat - 'a'.toNat + 10)
  else if 'A' ≤ c ∧ c ≤ 'F' then some (c.toNat - 'A'.toNat + 10)
  else none

/-- Single-character JSON string escapes. -/
def escChar : Char → Option Char
  | '"' => some '"'
  | '\\' => some '\\'
  | '/' => some '/'
  | 'b' => some (Char.ofNat 8)
  | 'f' => some (Char.ofNat 12)
  | 'n' => some '\n'
  | 'r' => some (Char.ofNat 13)
  | 't' => some '\t'
  | _ => none

/-- Body of a JSON string after the opening quote: returns the decoded
characters and the input after the closing quote.  Raw control characters
and bad escapes are rejected, as in `JSON.parse`. -/
def parseStrAux : List Char → Option (List Char × List Char)
  | [] => none
  | '"' :: rest => some ([], rest)
  | '\\' :: 'u' :: a :: b :: c :: d :: rest => do
      let ha ← hexVal a
      let hb ← hexVal b
      let hc ← hexVal c
      let hd ← hexVal d
      let (acc, rem) ← parseStrAux rest
      pure (Char.ofNat (((ha * 16 + hb) * 16 + hc) * 16 + hd) :: acc, rem)
  | '\\' :: e :: rest => do
      let c ← escChar e
      let (acc, rem) ← parseStrAux rest
      pure (c :: acc, rem)
  | c :: rest =>
      if c.toNat < 32 then none
      else do
        let (acc, rem) ← parseStrAux rest
        pure (c :: acc, rem)

/-- Value of a decimal digit. -/
def digitVal (c : Char) : Option Nat :=
  if '0' ≤ c ∧ c ≤ '9' then some (c.toNat - '0'.toNat) else none

/-- Split a maximal run of decimal digits off the front of the input. -/
def takeDigits : List Char → List Nat × List Char
  | [] => ([], [])
  | c :: cs =>
      match digitVal c with
      | some d =>
          let (ds, rest) := takeDigits cs
          (d :: ds, rest)
      | none => ([], c :: cs)

/-- A JSON integer numeral (optional minus, no redundant leading zero).
Fractional and exponent numerals are outside this model and rejected. -/
def parseNum (cs : List Char) : Option (Int × List Char) :=
  let (neg, cs1) := match cs with
    | '-' :: rest => (true, rest)
    | _ => (false, cs)
  match takeDigits cs1 with
  | ([], _) => none
  | (d :: ds, rest) =>
      if d = 0 ∧ ds ≠ [] then none
      else
        match rest with
        | '.' :: _ => none
        | 'e' :: _ => none
        | 'E' :: _ => none
        | _ =>
            let n : Nat := (d :: ds).foldl (fun acc x => acc * 10 + x) 0
            some (if neg then -(n : Int) else (n : Int), rest)

mutual

/-- A JSON value (fuelled recursive descent; fuel only bounds nesting and
`2 * length + 2` is always enough, since at least one character is consumed
for every two fuel steps). -/
def parseVal : Nat → List Char → Option (Json × List Char)
  | 0, _ => none
  | fuel + 1, cs =>
      match skipWs cs with
      | 'n' :: 'u' :: 'l' :: 'l' :: rest => some (.null, rest)
      | 't' :: 'r' :: 'u' :: 'e' :: rest => some (.bool true, rest)
      | 'f' :: 'a' :: 'l' :: 's' :: 'e' :: rest => some (.bool false, rest)
      | '"' :: rest => do
          let (s, rem) ← parseStrAux rest
          pure (.str (String.mk s), rem)
      | '[' :: rest =>
          (match skipWs rest with
           | ']' :: rem => some (.arr [], rem)
           | other => do
               let (xs, rem) ← parseElems fuel other
               pure (.arr xs, rem))
      | '\x7b' :: rest =>
          (match skipWs rest with
           | '\x7d' :: rem => some (.obj [], rem)
           | other => do
               let (fs, rem) ← parseMembers fuel other
               pure (.obj fs, rem))
      | other => do
          let (n, rem) ← parseNum other
          pure (.num n, rem)

/-- Comma-separated array elements up to the closing bracket. -/
def parseElems : Nat → List Char → Option (List Json × List Char)
  | 0, _ => none
  | fuel + 1, cs => do
      let (v, rem) ← parseVal fuel cs
      match skipWs rem with
      | ',' :: rest => do
          let (xs, rem2) ← parseElems fuel rest
          pure (v :: xs, rem2)
      | ']' :: rest => pure ([v], rest)
      | _ => none

/-- Comma-separated object members up to the closing brace. -/
def parseMembers : Nat → List Char → Option (List (String × Json) × List Char)
  | 0, _ => none
  | fuel + 1, cs =>
      match skipWs cs with
      | '"' :: rest => do
          let (k, rem) ← parseStrAux rest
          match skipWs rem with
          | ':' :: rest2 => do
              let (v, rem2) ← parseVal fuel rest2
              match skipWs rem2 with
              | ',' :: rest3 => do
                  let (fs, rem3) ← parseMembers fuel rest3
                  pure ((String.mk k, v) :: fs, rem3)
              | '\x7d' :: rest3 => pure ([(String.mk k, v)], rest3)
              | _ => none
          | _ => none
      | _ => none

end

/-- `JSON.parse` on a character list: one value, then only trailing
whitespace; `none` models a thrown `SyntaxError`. -/
def jsonParse (cs : List Char) : Option Json :=
  match parseVal (2 * cs.length + 2) cs with
  | some (v, rest) => if skipWs rest = [] then some v else none
  | none => none

/-! #### The regex match and `parseVoiceCommand` -/

/-- Index of the first occurrence of a character. -/
def indexOfChar (c : Char) : List Char → Option Nat
  | [] => none
  | x :: xs => if x = c then some 0 else (indexOfChar c xs).map (· + 1)

/-- Index of the last occurrence of a character. -/
def lastIndexOfChar (c : Char) (cs : List Char) : Option Nat :=
  (indexOfChar c cs.reverse).map (fun i => cs.length - 1 - i)

/-- The match of the greedy regex `\x7b[\s\S]*\x7d` (gemini.ts line 47):
leftmost-longest, so the span from the first opening brace that precedes
the last closing brace, through that last closing brace; no match when no
such pair exists. -/
def braceMatch (cs : List Char) : Option (List Char) :=
  match lastIndexOfChar '\x7d' cs with
  | none => none
  | some j =>
      match indexOfChar '\x7b' (cs.take j) with
      | none => none
      | some i => some ((cs.drop i).take (j + 1 - i))

/-- The literal `{ action: 'unknown' }` returned when nothing parses. -/
def unknownAction : Json := .obj [("action", .str "unknown")]

/-- `JSON.parse` with its thrown `SyntaxError` made explicit. -/
def JSONparse (cs : List Char) : Except String Json :=
  match jsonParse cs with
  | some v => .ok v
  | none => .error "SyntaxError"

/-- The try-block of `parseVoiceCommand` (gemini.ts lines 45-53) as a
function of the model's response text: match the brace regex and, on a
match, return `JSON.parse` of the matched span (which may throw); falling
through (no match) is `.ok none`. -/
def parseVoiceCommandTry (response : String) : Except String (Option Json) :=
  match braceMatch response.data with
  | some m =>
      match JSONparse m with
      | .ok v => .ok (some v)
      | .error e => .error e
  | none => .ok none

/-- Translation of `parseVoiceCommand` (gemini.ts lines 28-56) as a function
of the response text: the catch swallows the `JSON.parse` error and the
function ends by returning `{ action: 'unknown' }` whenever the try-block
did not return a parsed value. -/
def parseVoiceCommand (response : String) : Json :=
  match parseVoiceCommandTry response with
  | .ok (some v) => v
  | .ok none => unknownAction
  | .error _ => unknownAction

/-- C6: for every response text, `parseVoiceCommand` returns the JSON value
parsed from the (greedy, leftmost) brace-regex match of the response, and
returns the `action: unknown` object whenever there is no match or the
match does not parse; the thrown `SyntaxError` never escapes. -/
theorem parseVoiceCommand_extract_or_unknown (response : String) :
    parseVoiceCommand response =
      (match braceMatch response.data with
       | some m =>
           match jsonParse m with
           | some v => v
           | none => unknownAction
       | none => unknownAction) := by
  cases hb : braceMatch response.data with
  | none => simp [parseVoiceCommand, parseVoiceCommandTry, hb]
  | some m =>
      cases hj : jsonParse m with
      | none => simp [parseVoiceCommand, parseVoiceCommandTry, JSONparse, hb, hj]
      | some v => simp [parseVoiceCommand, parseVoiceCommandTry, JSONparse, hb, hj]

/-- A fetch body whose `text` field is a (truthy) JSON number, not a string. -/
def numericTextBody : Json :=
  .obj [("candidates", .arr
    [.obj [("content", .obj [("parts", .arr [.obj [("text", .num 42)]])])]])]

/-- C7 counterexample: on a response body whose `text` field is the number
42, `generateAIRecommendation` returns that number unchanged — a non-string
result — so the claim that the call always returns a string fails on the
code. -/
theorem generateAIRecommendation_nonString :
    generateAIRecommendation (.ok numericTextBody) = Json.num 42 ∧
    isStr (generateAIRecommendation (.ok numericTextBody)) = false :=
  ⟨rfl, rfl⟩

/-- C7 (amended): `generateAIRecommendation` never propagates an error: on
any thrown failure — a fetch/body-parse error, or the `TypeError` raised by
`data.candidates` on a null body, which is exactly an `extractText` error —
it returns the fixed string `Unable to generate recommendation at this
time`; when the text path is extracted, it returns the extracted value
as-is when truthy (a string whenever that value is a string) and the fixed
string `No recommendation available` when falsy. -/
theorem generateAIRecommendation_fallback (fetched : Except String Json) :
    (∀ e, fetched = .error e →
      generateAIRecommendation fetched =
        .str "Unable to generate recommendation at this time") ∧
    (∀ d, fetched = .ok d →
      (∀ e, extractText d = .error e →
        generateAIRecommendation fetched =
          .str "Unable to generate recommendation at this time") ∧
      (∀ t, extractText d = .ok t →
        generateAIRecommendation fetched =
          if truthy t then t else .str "No recommendation available")) := by
  cases fetched with
  | error e => exact ⟨(fun _ _ => rfl), (fun d h => nomatch h)⟩
  | ok d =>
      refine ⟨(fun e h => nomatch h), fun d2 h => ?_⟩
      cases h
      constructor
      · intro e he
        simp [generateAIRecommendation, he]
      · intro t ht
        simp [generateAIRecommendation, ht]

theorem generateAIRecommendation_fallback_witness :
    generateAIRecommendation (.error "network failure") =
      .str "Unable to generate recommendation at this time" ∧
    generateAIRecommendation (.ok .null) =
      .str "Unable to generate recommendation at this time" ∧
    generateAIRecommendation (.ok numericTextBody) =
      (if truthy (.num 42) then Json.num 42
       else .str "No recommendation available") :=
  ⟨(generateAIRecommendation_fallback (.error "network failure")).1
      "network failure" rfl,
   ((generateAIRecommendation_fallback (.ok .null)).2 .null rfl).1
      "TypeError" rfl,
   ((generateAIRecommendation_fallback (.ok numericTextBody)).2
      numericTextBody rfl).2 (.num 42) rfl⟩

/-- A model response whose embedded JSON carries an out-of-vocabulary
action and an out-of-range priority. -/
def weirdResponse : String :=
  "Sure! \x7b\"action\": \"destroy\", \"priority\": 9\x7d"

/-- C10: `parseVoiceCommand` performs no validation of the parsed JSON:
on this response it returns an object whose `action` is none of `create`,
`complete`, `update`, `unknown`, and whose `priority` lies outside 1-4. -/
theorem parseVoiceCommand_no_validation :
    parseVoiceCommand weirdResponse =
      Json.obj [("action", Json.str "destroy"), ("priority", Json.num 9)] ∧
    "destroy" ∉ (["create", "complete", "update", "unknown"] : List String) ∧
    ¬(1 ≤ (9 : Int) ∧ (9 : Int) ≤ 4) :=
  ⟨rfl, by decide, by decide⟩

end TaskManager
